import Mathlib

/-!
Verification of the domain-security-monitor engine.

The definitions below are a shallow embedding of the TypeScript sources
`src/types/domain.ts`, `src/services/securityCheckService.ts` and
`src/hooks/useDomainStore.ts`.  The repository contains two near-duplicate
variants of the service and of the store hook; where the variants differ the
embeddings are suffixed `₁` (first variant in the file) and `₂` (second
variant).  Machine integers are modelled as `Nat` with explicit `% 2 ^ 32`
where 32-bit overflow matters; network effects are modelled by passing an
explicit oracle of per-attempt outcomes; the JavaScript platform primitive
`crypto.subtle.digest("SHA-256", _)` is modelled by a full FIPS-180-4
SHA-256 implementation over byte lists.
-/

namespace DomainMonitor

/-! ## Data model (`src/types/domain.ts`) -/

inductive SecurityStatus where
  | Safe
  | Unsafe
  | PartiallySafe
  | Unknown
deriving DecidableEq, Repr

inductive SpamhausStatus where
  | Safe
  | Blacklisted
  | Unknown
deriving DecidableEq, Repr

structure DomainHistoryEntry where
  timestamp : Nat
  securityStatus : SecurityStatus
  spamhausStatus : SpamhausStatus
deriving DecidableEq, Repr

structure Domain where
  id : String
  name : String
  securityStatus : SecurityStatus
  spamhausStatus : SpamhausStatus
  lastChecked : Option Nat
  isChecking : Bool
  history : List DomainHistoryEntry
deriving DecidableEq, Repr

/-! ## SHA-256 (model of the platform primitive `crypto.subtle.digest`)

Standard FIPS-180-4 SHA-256 over byte lists, words as `Nat` reduced
`% 2 ^ 32`. -/

namespace SHA256

def M32 : Nat := 4294967296

def rotr (n x : Nat) : Nat := ((x >>> n) ||| (x <<< (32 - n))) % M32

def bigSigma0 (x : Nat) : Nat := rotr 2 x ^^^ rotr 13 x ^^^ rotr 22 x

def bigSigma1 (x : Nat) : Nat := rotr 6 x ^^^ rotr 11 x ^^^ rotr 25 x

def smallSigma0 (x : Nat) : Nat := rotr 7 x ^^^ rotr 18 x ^^^ (x >>> 3)

def smallSigma1 (x : Nat) : Nat := rotr 17 x ^^^ rotr 19 x ^^^ (x >>> 10)

def ch (x y z : Nat) : Nat := (x &&& y) ^^^ ((x ^^^ 4294967295) &&& z)

def maj (x y z : Nat) : Nat := (x &&& y) ^^^ (x &&& z) ^^^ (y &&& z)

/-- The 64 round constants of FIPS 180-4 section 4.2.2, written in
decimal. -/
def K : List Nat :=
  [1116352408, 1899447441, 3049323471, 3921009573,
   961987163, 1508970993, 2453635748, 2870763221,
   3624381080, 310598401, 607225278, 1426881987,
   1925078388, 2162078206, 2614888103, 3248222580,
   3835390401, 4022224774, 264347078, 604807628,
   770255983, 1249150122, 1555081692, 1996064986,
   2554220882, 2821834349, 2952996808, 3210313671,
   3336571891, 3584528711, 113926993, 338241895,
   666307205, 773529912, 1294757372, 1396182291,
   1695183700, 1986661051, 2177026350, 2456956037,
   2730485921, 2820302411, 3259730800, 3345764771,
   3516065817, 3600352804, 4094571909, 275423344,
   430227734, 506948616, 659060556, 883997877,
   958139571, 1322822218, 1537002063, 1747873779,
   1955562222, 2024104815, 2227730452, 2361852424,
   2428436474, 2756734187, 3204031479, 3329325298]

structure Hash8 where
  h0 : Nat
  h1 : Nat
  h2 : Nat
  h3 : Nat
  h4 : Nat
  h5 : Nat
  h6 : Nat
  h7 : Nat
deriving DecidableEq, Repr

def initH : Hash8 :=
  ⟨1779033703, 3144134277, 1013904242, 2773480762,
   1359893119, 2600822924, 528734635, 1541459225⟩

/-- Message padding: `0x80`, zeros to 56 mod 64, then the 64-bit big-endian
bit length. -/
def padMessage (msg : List Nat) : List Nat :=
  let l := msg.length
  let bitLen := l * 8
  let padZeros := (56 + 64 - ((l + 1) % 64)) % 64
  let lenBytes := (List.range 8).map (fun i => (bitLen >>> (8 * (7 - i))) % 256)
  msg ++ [0x80] ++ List.replicate padZeros 0 ++ lenBytes

def chunksFuel : Nat → List Nat → List (List Nat)
  | 0, _ => []
  | fuel + 1, l => if l.isEmpty then [] else l.take 64 :: chunksFuel fuel (l.drop 64)

/-- Split into 64-byte blocks (fuel-indexed so that it reduces by
structural recursion; `l.length` steps always suffice). -/
def chunks (l : List Nat) : List (List Nat) := chunksFuel l.length l

/-- The first 16 message-schedule words of a 64-byte block (big-endian). -/
def initialW (block : List Nat) : List Nat :=
  (List.range 16).map (fun i =>
    block.getD (4 * i) 0 * 16777216 + block.getD (4 * i + 1) 0 * 65536 +
    block.getD (4 * i + 2) 0 * 256 + block.getD (4 * i + 3) 0)

def extendWFuel : Nat → List Nat → List Nat
  | 0, w => w
  | fuel + 1, w =>
    if w.length < 64 then
      let n := w.length
      let next := (smallSigma1 (w.getD (n - 2) 0) + w.getD (n - 7) 0 +
        smallSigma0 (w.getD (n - 15) 0) + w.getD (n - 16) 0) % M32
      extendWFuel fuel (w ++ [next])
    else w

/-- Extend the message schedule to 64 words (fuel-indexed structural
recursion; 64 steps always suffice). -/
def extendW (w : List Nat) : List Nat := extendWFuel 64 w

def roundStep (st : Hash8) (wk : Nat × Nat) : Hash8 :=
  let t1 := (st.h7 + bigSigma1 st.h4 + ch st.h4 st.h5 st.h6 + wk.2 + wk.1) % M32
  let t2 := (bigSigma0 st.h0 + maj st.h0 st.h1 st.h2) % M32
  ⟨(t1 + t2) % M32, st.h0, st.h1, st.h2, (st.h3 + t1) % M32, st.h4, st.h5, st.h6⟩

def processBlock (H : Hash8) (block : List Nat) : Hash8 :=
  let w := extendW (initialW block)
  let s := (w.zip K).foldl roundStep H
  ⟨(H.h0 + s.h0) % M32, (H.h1 + s.h1) % M32, (H.h2 + s.h2) % M32,
   (H.h3 + s.h3) % M32, (H.h4 + s.h4) % M32, (H.h5 + s.h5) % M32,
   (H.h6 + s.h6) % M32, (H.h7 + s.h7) % M32⟩

def wordBytes (w : Nat) : List Nat :=
  [(w >>> 24) % 256, (w >>> 16) % 256, (w >>> 8) % 256, w % 256]

/-- The 32-byte SHA-256 digest of a byte list. -/
def sha256bytes (msg : List Nat) : List Nat :=
  let F := (chunks (padMessage msg)).foldl processBlock initH
  wordBytes F.h0 ++ wordBytes F.h1 ++ wordBytes F.h2 ++ wordBytes F.h3 ++
  wordBytes F.h4 ++ wordBytes F.h5 ++ wordBytes F.h6 ++ wordBytes F.h7

end SHA256

/-- Models JS `b.toString(16)`: lowercase hex digits of a byte. -/
def natToHexString (n : Nat) : String := String.mk (Nat.toDigits 16 n)

/-- Models JS `s.padStart(2, '0')`. -/
def padStart2 (s : String) : String :=
  if s.length < 2 then String.mk (List.replicate (2 - s.length) '0') ++ s else s

/-- Embeds `hashArray.map(b => b.toString(16).padStart(2, '0')).join('')`. -/
def bytesToHex (bytes : List Nat) : String :=
  String.join (bytes.map (fun b => padStart2 (natToHexString b)))

/-- Byte encoding of a string (the source's `TextEncoder().encode`); code
points coincide with UTF-8 bytes for the ASCII inputs hashed here. -/
def strBytes (s : String) : List Nat := s.data.map (fun c => c.toNat)

/-- Embeds `generateSHA256Hash` (securityCheckService.ts): hex digest of a string. -/
def generateSHA256Hash (input : String) : String :=
  bytesToHex (SHA256.sha256bytes (strBytes input))

/-! ## RetryingTransport (`fetchWithRetry`, both service variants)

Network effects are modelled by an oracle: the list of outcomes the
successive `fetch` attempts would produce, consumed head first. -/

def MAX_RETRIES : Nat := 3

def RETRY_DELAY : Nat := 2000

structure Response (α : Type) where
  status : Nat
  body : α
deriving DecidableEq, Repr

/-- Models `response.ok`: status in the 2xx range. -/
def Response.isOk (r : Response α) : Bool := 200 ≤ r.status && r.status < 300

inductive FetchAttempt (α : Type) where
  | throwErr
  | respond (r : Response α)
deriving DecidableEq, Repr

/-- Models `fetchWithRetry(url, options, retries)`: returns the first `ok` response;
a thrown fetch or a non-ok response consumes one retry; once retries are
exhausted the last error is thrown (`Except.error`).  An exhausted oracle is
a thrown fetch. -/
def fetchWithRetry : List (FetchAttempt α) → Nat → Except Unit (Response α)
  | [], _ => .error ()
  | .throwErr :: rest, retries =>
    if retries > 0 then fetchWithRetry rest (retries - 1) else .error ()
  | .respond r :: rest, retries =>
    if r.isOk then .ok r
    else if retries > 0 then fetchWithRetry rest (retries - 1) else .error ()

/-! ## ThreatMatchClient (`checkWithGoogleSafeBrowsing`, first service variant) -/

structure ThreatMatch where
  threatType : String
  threatUrl : String
  cacheDuration : String
deriving DecidableEq, Repr

structure SafeBrowsingResponse where
  threatMatches : Option (List ThreatMatch)
deriving DecidableEq, Repr

/-- The outcome of `response.json()`: a parsed body or a parse failure. -/
abbrev SBBody := Except Unit SafeBrowsingResponse

structure URLParts where
  hostname : String
  pathname : String
deriving DecidableEq, Repr

/-- The characters after the first occurrence of `sep`, or `[]` when `sep`
does not occur. -/
def dropThroughSep (sep : List Char) : List Char → List Char
  | [] => []
  | c :: t =>
    if sep.isPrefixOf (c :: t) then (c :: t).drop sep.length
    else dropThroughSep sep t

/-- Models JS `String.prototype.split` with a single-character separator
over the character list. -/
def jsSplitChar (s : String) (sep : Char) : List String :=
  (List.splitOn sep s.data).map String.mk

/-- The `new URL(url)` fields used by the source (platform primitive,
modelled for URLs of the shape `scheme://host/path` produced by
`candidateUrls`): `hostname` is the part between `://` and the first `/`,
`pathname` the rest (`/` when the path is empty). -/
def parseUrl (url : String) : URLParts :=
  let rest := dropThroughSep "://".data url.data
  let hostChars := rest.takeWhile (fun c => c ≠ '/')
  let pathChars := rest.drop hostChars.length
  { hostname := String.mk hostChars,
    pathname := if pathChars.isEmpty then "/" else String.mk pathChars }

/-- The loop of `generateUrlExpressions`: the host, then the host joined with
every path-prefix expansion, accumulating `currentPath`. -/
def generateUrlExpressionsCore (hostname : String) (pathParts : List String) : List String :=
  hostname ::
    (pathParts.foldl
      (fun acc part =>
        let currentPath := acc.1 ++ "/" ++ part
        (currentPath, acc.2 ++ [hostname ++ currentPath]))
      ("", [])).2

/-- Embeds `generateUrlExpressions` (securityCheckService.ts, first variant). -/
def generateUrlExpressions (url : String) : List String :=
  let urlObj := parseUrl url
  generateUrlExpressionsCore urlObj.hostname
    ((jsSplitChar urlObj.pathname '/').filter (fun s => s ≠ ""))

/-- Embeds `getHashPrefix`: `hash.slice(0, 8)`. -/
def getHashPrefix (hash : String) : String := hash.take 8

/-- The four candidate URL variants built in `checkWithGoogleSafeBrowsing`. -/
def candidateUrls (domain : String) : List String :=
  ["http://" ++ domain, "https://" ++ domain,
   "http://www." ++ domain, "https://www." ++ domain]

/-- Embeds `urls.flatMap(url => generateUrlExpressions(url))`. -/
def gsbExpressions (domain : String) : List String :=
  (candidateUrls domain).flatMap generateUrlExpressions

def gsbExpressionHashes (domain : String) : List String :=
  (gsbExpressions domain).map generateSHA256Hash

def gsbExpressionHashPrefixes (domain : String) : List String :=
  (gsbExpressionHashes domain).map getHashPrefix

/-- Embeds `checkWithGoogleSafeBrowsing` (first service variant): hash-prefix lookup
with full-hash confirmation.  The transport and the JSON parse are given by
the oracle `attempts`. -/
def checkWithGoogleSafeBrowsing (domain : String)
    (attempts : List (FetchAttempt SBBody)) : SecurityStatus :=
  let expressionHashes := gsbExpressionHashes domain
  match fetchWithRetry attempts MAX_RETRIES with
  | .error _ => SecurityStatus.Unknown
  | .ok response =>
    if response.status ≠ 200 then SecurityStatus.Unknown
    else
      match response.body with
      | .error _ => SecurityStatus.Unknown
      | .ok responseData =>
        match responseData.threatMatches with
        | some ms =>
          if ms.any (fun m => expressionHashes.contains (generateSHA256Hash m.threatUrl))
          then SecurityStatus.Unsafe
          else SecurityStatus.Safe
        | none => SecurityStatus.Safe

/-! ## BlocklistClient (`checkSpamhausStatus`, both service variants) -/

def notListedIndicator : String := "未列入黑名单"

/-- Does `sub` occur as a contiguous run inside `l`? -/
def hasInfix (sub : List Char) : List Char → Bool
  | [] => sub.isEmpty
  | c :: t => sub.isPrefixOf (c :: t) || hasInfix sub t

/-- Models JS `text.includes(sub)` (platform primitive) over the
character lists. -/
def jsIncludes (s sub : String) : Bool := hasInfix sub.data s.data

/-- Embeds `checkSpamhausStatus` (first service variant): `Unknown` when the
transport fails after retries, otherwise classify by the not-listed
indicator. -/
def checkSpamhausStatus₁ (attempts : List (FetchAttempt String)) : SpamhausStatus :=
  match fetchWithRetry attempts MAX_RETRIES with
  | .error _ => SpamhausStatus.Unknown
  | .ok response =>
    if jsIncludes response.body notListedIndicator
    then SpamhausStatus.Safe
    else SpamhausStatus.Blacklisted

def CACHE_DURATION : Nat := 900000

structure SpamhausCacheEntry where
  status : SpamhausStatus
  timestamp : Nat
deriving DecidableEq, Repr

def SpamhausCache := List (String × SpamhausCacheEntry)

def cacheGet (cache : List (String × SpamhausCacheEntry)) (key : String) :
    Option SpamhausCacheEntry :=
  (cache.find? (fun e => e.1 == key)).map Prod.snd

/-- Embeds `isCacheValid` (second service variant). -/
def isCacheValid (cache : List (String × SpamhausCacheEntry)) (now : Nat)
    (key : String) : Bool :=
  match cacheGet cache key with
  | none => false
  | some entry => now - entry.timestamp < CACHE_DURATION

/-- Models JS `Map.prototype.set`. -/
def cacheSet (cache : List (String × SpamhausCacheEntry)) (key : String)
    (entry : SpamhausCacheEntry) : List (String × SpamhausCacheEntry) :=
  if cache.any (fun e => e.1 == key)
  then cache.map (fun e => if e.1 == key then (key, entry) else e)
  else cache ++ [(key, entry)]

/-- Embeds `checkSpamhausStatus` (second service variant, with cache).  Note: its
catch branch returns `Safe`, not `Unknown`.  The `getD Unknown` models the
non-null assertion `cache.get(cacheKey)!`, never hit when the cache is
valid. -/
def checkSpamhausStatus₂ (domain : String) (now : Nat)
    (cache : List (String × SpamhausCacheEntry))
    (attempts : List (FetchAttempt String)) :
    SpamhausStatus × List (String × SpamhausCacheEntry) :=
  let cacheKey := "spamhaus_" ++ domain
  if isCacheValid cache now cacheKey then
    (((cacheGet cache cacheKey).map SpamhausCacheEntry.status).getD SpamhausStatus.Unknown,
      cache)
  else
    match fetchWithRetry attempts MAX_RETRIES with
    | .error _ => (SpamhausStatus.Safe, cache)
    | .ok response =>
      let status :=
        if jsIncludes response.body notListedIndicator
        then SpamhausStatus.Safe
        else SpamhausStatus.Blacklisted
      (status, cacheSet cache cacheKey ⟨status, now⟩)

/-! ## DomainRegistry / CheckScheduler (`src/hooks/useDomainStore.ts`)

The React `useState` store is modelled by explicit state passing.  The two
client calls of a check are summarised by a `ClientOutcome` oracle;
timestamps (`Date.now()`) and generated ids are passed explicitly. -/

/-- Models JS `String.prototype.toLowerCase` (platform primitive) over
the character list so that it reduces in the kernel. -/
def jsToLowerCase (s : String) : String := String.mk (s.data.map Char.toLower)

/-- Models JS `String.prototype.trim` (platform primitive) over the
character list. -/
def jsTrim (s : String) : String :=
  String.mk
    (((s.data.dropWhile Char.isWhitespace).reverse.dropWhile
      Char.isWhitespace).reverse)

/-- Embeds `domainName.toLowerCase().trim()`. -/
def normalizeDomainName (domainName : String) : String :=
  jsTrim (jsToLowerCase domainName)

/-- The `newDomain` initializer of the first variant's `addDomain`
(note: `spamhausStatus` starts at `Safe` there). -/
def newDomain₁ (nowId : Nat) (normalizedDomain : String) : Domain :=
  { id := toString nowId, name := normalizedDomain,
    securityStatus := SecurityStatus.Unknown,
    spamhausStatus := SpamhausStatus.Safe,
    lastChecked := none, isChecking := true, history := [] }

/-- Embeds `addDomain` (first variant): registry effect only; the deferred
`checkDomain` it schedules is modelled separately by `checkDomain₁`. -/
def addDomain₁ (domainName : String) (nowId : Nat) (domains : List Domain) :
    List Domain :=
  let normalizedDomain := normalizeDomainName domainName
  if domains.any (fun domain => jsToLowerCase domain.name == normalizedDomain)
  then domains
  else domains ++ [newDomain₁ nowId normalizedDomain]

/-- Embeds `removeDomain` (both variants): filter the id out. -/
def removeDomain (domainId : String) (domains : List Domain) : List Domain :=
  domains.filter (fun domain => domain.id ≠ domainId)

/-- Models JS `array.slice(-n)`: the last `n` elements. -/
def jsSliceLast (n : Nat) (l : List α) : List α := l.drop (l.length - n)

/-- Embeds `updateDomainStatus` (registry effect, identical in both variants):
append a history entry only when the status pair changed, keep the last 20
entries, set the new pair, `lastChecked`, and `isChecking := false`; records
with a different id are returned as-is. -/
def applyStatusToRecord (domainId : String) (securityStatus : SecurityStatus)
    (spamhausStatus : SpamhausStatus) (timestamp : Nat) (domain : Domain) :
    Domain :=
  if domain.id == domainId then
    let historyEntry : DomainHistoryEntry :=
      ⟨timestamp, securityStatus, spamhausStatus⟩
    let history :=
      if domain.securityStatus ≠ securityStatus ∨
         domain.spamhausStatus ≠ spamhausStatus
      then jsSliceLast 20 (domain.history ++ [historyEntry])
      else domain.history
    { domain with
      securityStatus := securityStatus, spamhausStatus := spamhausStatus,
      lastChecked := some timestamp, isChecking := false, history := history }
  else domain

def updateDomainStatus (domainId : String) (securityStatus : SecurityStatus)
    (spamhausStatus : SpamhausStatus) (timestamp : Nat)
    (domains : List Domain) : List Domain :=
  domains.map (applyStatusToRecord domainId securityStatus spamhausStatus timestamp)

/-- The joint outcome of the two awaited client calls inside a check:
either both verdicts, or a rejection with its message. -/
inductive ClientOutcome where
  | success (securityStatus : SecurityStatus) (spamhausStatus : SpamhausStatus)
  | failure (message : String)
deriving DecidableEq, Repr

/-- Embeds `checkDomain` (first variant): mark checking, then on success apply both
verdicts; the catch branch applies `(Unknown, Safe)` — "Set to unknown on
error". -/
def checkDomain₁ (domainId : String) (outcome : ClientOutcome) (timestamp : Nat)
    (domains : List Domain) : List Domain :=
  let marked := domains.map (fun domain =>
    if domain.id == domainId then { domain with isChecking := true } else domain)
  match domains.find? (fun d => d.id == domainId) with
  | none => marked
  | some _ =>
    match outcome with
    | .success securityStatus spamhausStatus =>
      updateDomainStatus domainId securityStatus spamhausStatus timestamp marked
    | .failure _ =>
      updateDomainStatus domainId SecurityStatus.Unknown SpamhausStatus.Safe
        timestamp marked

/-- The synchronous prefix of `checkDomain` (both variants): the
`setDomains` call that marks the record `isChecking := true`, which runs
before the function's first `await`. -/
def checkDomainMark (domainId : String) (domains : List Domain) : List Domain :=
  domains.map (fun domain =>
    if domain.id == domainId then { domain with isChecking := true }
    else domain)

/-- Embeds `checkAllDomains` (first variant):
`domains.forEach(domain => checkDomain(domain.id))` fires the async checks
without awaiting them and without any sweep guard.  Synchronously — up to
each fired check's first `await` — this marks every listed domain as
checking, in iteration order; the per-domain completions
(`updateDomainStatus`, as in `checkDomain₁`) are left pending and apply
later in arbitrary order.  The result is the post-prefix registry paired
with the ids of the fired, still-pending checks (those whose id the stale
`domains.find` located). -/
def checkAllDomainsStart₁ (domains : List Domain) :
    List Domain × List String :=
  (domains.foldl (fun ds domain => checkDomainMark domain.id ds) domains,
   (domains.filter (fun domain =>
      (domains.find? (fun d => d.id == domain.id)).isSome)).map Domain.id)

/-- The second variant's store state: the domain list plus the sweep guard
`isCheckingRef`, the published `isChecking` flag, the `checkStatus` message
and `lastChecked`. -/
structure StoreState where
  domains : List Domain
  isCheckingRef : Bool
  isChecking : Bool
  checkStatus : String
  lastChecked : Option Nat
deriving DecidableEq, Repr

/-- Embeds `updateDomainStatus` (second variant): the shared registry effect plus
the `checkStatus` message for the matched record and `setLastChecked`. -/
def updateDomainStatus₂ (domainId : String) (securityStatus : SecurityStatus)
    (spamhausStatus : SpamhausStatus) (timestamp : Nat) (st : StoreState) :
    StoreState :=
  let newStatus :=
    match st.domains.find? (fun d => d.id == domainId) with
    | some d => "更新域名 " ++ d.name ++ " 状态"
    | none => st.checkStatus
  { st with
    domains := updateDomainStatus domainId securityStatus spamhausStatus
      timestamp st.domains,
    checkStatus := newStatus,
    lastChecked := some timestamp }

/-- Embeds `checkDomain` (second variant): mark checking; unknown id is reported
and left alone; on success apply both verdicts; the catch branch applies
`(Unknown, Unknown)`. -/
def checkDomain₂ (domainId : String) (outcome : ClientOutcome) (timestamp : Nat)
    (st : StoreState) : StoreState :=
  let st1 := { st with
    domains := st.domains.map (fun (domain : Domain) =>
      if domain.id == domainId then { domain with isChecking := true }
      else domain) }
  match st.domains.find? (fun d => d.id == domainId) with
  | none => { st1 with checkStatus := "未找到域名 ID: " ++ domainId }
  | some domainToCheck =>
    match outcome with
    | .success securityStatus spamhausStatus =>
      updateDomainStatus₂ domainId securityStatus spamhausStatus timestamp
        { st1 with checkStatus := "域名 " ++ domainToCheck.name ++ " 检查完成" }
    | .failure message =>
      updateDomainStatus₂ domainId SecurityStatus.Unknown SpamhausStatus.Unknown
        timestamp
        { st1 with
          checkStatus := "检查域名 " ++ domainToCheck.name ++ " 时出错: " ++ message }

/-- Embeds `batchCheckDomains` (second variant): skip when `isCheckingRef` is
already set; otherwise raise the guard, check the listed domains one after
another (serially: each `checkDomain` is fully applied before the next), and
clear the guard again (the `finally` clause). -/
def batchCheckDomains (domainList : List Domain)
    (outcomes : String → ClientOutcome) (timestamp : Nat) (st : StoreState) :
    StoreState :=
  if st.isCheckingRef then st
  else if domainList.length == 0 then st
  else
    let st1 := { st with
      isCheckingRef := true, isChecking := true,
      checkStatus := "开始批量检查 " ++ toString domainList.length ++ " 个域名" }
    let st2 := domainList.foldl
      (fun s domain =>
        checkDomain₂ domain.id (outcomes domain.id) timestamp
          { s with checkStatus := "正在检查域名: " ++ domain.name })
      st1
    let st3 := { st2 with
      checkStatus := "批量检查完成", lastChecked := some timestamp }
    { st3 with isCheckingRef := false, isChecking := false }

/-- The `newDomain` initializer of the second variant's `addDomain`. -/
def newDomain₂ (nowId : Nat) (normalizedDomain : String) : Domain :=
  { id := toString nowId, name := normalizedDomain,
    securityStatus := SecurityStatus.Unknown,
    spamhausStatus := SpamhausStatus.Unknown,
    lastChecked := none, isChecking := true, history := [] }

/-- Embeds `addDomain` (second variant): duplicate names (case-insensitively, after
normalization) only set the already-exists message; otherwise the new record
is appended and immediately checked, the completed check updating the record
by name (success overwrites `history` with a single entry; failure resets
both statuses to `Unknown`). -/
def addDomain₂ (domainName : String) (nowId : Nat) (timestamp : Nat)
    (outcome : ClientOutcome) (st : StoreState) : StoreState :=
  let normalizedDomain := normalizeDomainName domainName
  if st.domains.any (fun domain => jsToLowerCase domain.name == normalizedDomain) then
    { st with checkStatus := "域名 " ++ normalizedDomain ++ " 已存在，无需重复添加" }
  else
    let st1 := { st with
      checkStatus := "正在检查域名 " ++ normalizedDomain ++ " 的安全状态...",
      domains := st.domains ++ [newDomain₂ nowId normalizedDomain] }
    match outcome with
    | .success securityStatus spamhausStatus =>
      { st1 with
        domains := st1.domains.map (fun domain =>
          if domain.name == normalizedDomain then
            { domain with
              securityStatus := securityStatus,
              spamhausStatus := spamhausStatus,
              lastChecked := some timestamp, isChecking := false,
              history := [⟨timestamp, securityStatus, spamhausStatus⟩] }
          else domain),
        checkStatus := "域名 " ++ normalizedDomain ++ " 检查完成",
        lastChecked := some timestamp }
    | .failure message =>
      { st1 with
        domains := st1.domains.map (fun domain =>
          if domain.name == normalizedDomain then
            { domain with
              securityStatus := SecurityStatus.Unknown,
              spamhausStatus := SpamhausStatus.Unknown,
              lastChecked := some timestamp, isChecking := false }
          else domain),
        checkStatus := "检查域名 " ++ normalizedDomain ++ " 时出错: " ++ message }

/-- A sequence of completed checks applied to the registry, one
`updateDomainStatus` per check: `(domainId, securityStatus, spamhausStatus,
timestamp)`. -/
def applyUpdates
    (updates : List (String × SecurityStatus × SpamhausStatus × Nat))
    (domains : List Domain) : List Domain :=
  updates.foldl
    (fun ds u => updateDomainStatus u.1 u.2.1 u.2.2.1 u.2.2.2 ds) domains

/-! ## Helper lemmas -/

theorem applyStatusToRecord_id (domainId : String) (sec : SecurityStatus)
    (spam : SpamhausStatus) (ts : Nat) (d : Domain) :
    (applyStatusToRecord domainId sec spam ts d).id = d.id := by
  simp only [applyStatusToRecord]
  split <;> rfl

theorem applyStatusToRecord_name (domainId : String) (sec : SecurityStatus)
    (spam : SpamhausStatus) (ts : Nat) (d : Domain) :
    (applyStatusToRecord domainId sec spam ts d).name = d.name := by
  simp only [applyStatusToRecord]
  split <;> rfl

theorem applyStatusToRecord_of_ne (domainId : String) (sec : SecurityStatus)
    (spam : SpamhausStatus) (ts : Nat) (d : Domain) (h : d.id ≠ domainId) :
    applyStatusToRecord domainId sec spam ts d = d := by
  simp [applyStatusToRecord, h]

theorem updateDomainStatus_of_not_mem (domains : List Domain) (domainId : String)
    (sec : SecurityStatus) (spam : SpamhausStatus) (ts : Nat)
    (h : ∀ d ∈ domains, d.id ≠ domainId) :
    updateDomainStatus domainId sec spam ts domains = domains := by
  rw [updateDomainStatus]
  induction domains with
  | nil => rfl
  | cons a t ih =>
    simp only [List.map_cons]
    rw [applyStatusToRecord_of_ne _ _ _ _ _ (h a (by simp)), ih]
    intro d hd
    exact h d (by simp [hd])

/-- C5: after a record's id is removed from the registry, a later
`updateDomainStatus` for that id is a no-op: the registry is unchanged, no
record is recreated, and the list still does not contain the removed id. -/
theorem update_after_remove_discarded (domains : List Domain)
    (domainId : String) (sec : SecurityStatus) (spam : SpamhausStatus)
    (ts : Nat) :
    updateDomainStatus domainId sec spam ts (removeDomain domainId domains) =
      removeDomain domainId domains ∧
    ∀ d ∈ updateDomainStatus domainId sec spam ts
        (removeDomain domainId domains), d.id ≠ domainId := by
  have hrem : ∀ d ∈ removeDomain domainId domains, d.id ≠ domainId := by
    intro d hd
    simp only [removeDomain, List.mem_filter, decide_eq_true_eq] at hd
    exact hd.2
  have heq := updateDomainStatus_of_not_mem _ domainId sec spam ts hrem
  exact ⟨heq, by rw [heq]; exact hrem⟩

theorem update_after_remove_discarded_witness :
    updateDomainStatus "1" SecurityStatus.Safe SpamhausStatus.Safe 7
        (removeDomain "1"
          [{ id := "1", name := "a.b", securityStatus := SecurityStatus.Unknown,
             spamhausStatus := SpamhausStatus.Unknown, lastChecked := none,
             isChecking := true, history := [] }]) =
      removeDomain "1"
        [{ id := "1", name := "a.b", securityStatus := SecurityStatus.Unknown,
           spamhausStatus := SpamhausStatus.Unknown, lastChecked := none,
           isChecking := true, history := [] }] :=
  (update_after_remove_discarded _ "1" SecurityStatus.Safe SpamhausStatus.Safe 7).1

theorem jsSliceLast_length_le (n : Nat) (l : List α) :
    (jsSliceLast n l).length ≤ n := by
  simp only [jsSliceLast, List.length_drop]
  omega

theorem jsSliceLast_suffix (n : Nat) (l : List α) : jsSliceLast n l <:+ l :=
  List.drop_suffix _ _

theorem applyStatusToRecord_history_le (domainId : String)
    (sec : SecurityStatus) (spam : SpamhausStatus) (ts : Nat) (d : Domain)
    (h : d.history.length ≤ 20) :
    (applyStatusToRecord domainId sec spam ts d).history.length ≤ 20 := by
  simp only [applyStatusToRecord]
  split
  · split
    · exact jsSliceLast_length_le 20 _
    · exact h
  · exact h

/-- C6: the history bound and change-only append policy.  (a) a check whose
pair equals the record's current pair appends nothing; (b) a changed pair
appends the new entry and keeps only the last 20; (c) the new history is a
suffix of the old history extended by the entry (oldest evicted first);
(d) across any sequence of completed checks the bound 20 is preserved. -/
theorem history_bounded_fifo_change_only (domainId : String)
    (sec : SecurityStatus) (spam : SpamhausStatus) (ts : Nat) (d : Domain) :
    (d.securityStatus = sec → d.spamhausStatus = spam →
      (applyStatusToRecord domainId sec spam ts d).history = d.history) ∧
    (d.id = domainId → (d.securityStatus ≠ sec ∨ d.spamhausStatus ≠ spam) →
      (applyStatusToRecord domainId sec spam ts d).history =
        jsSliceLast 20 (d.history ++ [⟨ts, sec, spam⟩])) ∧
    ((applyStatusToRecord domainId sec spam ts d).history = d.history ∨
      (applyStatusToRecord domainId sec spam ts d).history <:+
        d.history ++ [⟨ts, sec, spam⟩]) ∧
    (∀ updates domains, (∀ x ∈ domains, x.history.length ≤ 20) →
      ∀ x ∈ applyUpdates updates domains, x.history.length ≤ 20) := by
  refine ⟨?_, ?_, ?_, ?_⟩
  · intro hsec hspam
    simp only [applyStatusToRecord, hsec, hspam, ne_eq, not_true_eq_false,
      or_self, if_false]
    split <;> rfl
  · intro hid hchange
    simp [applyStatusToRecord, hid, hchange]
  · simp only [applyStatusToRecord]
    split
    · split
      · right; exact jsSliceLast_suffix 20 _
      · left; rfl
    · left; rfl
  · intro updates
    induction updates with
    | nil => intro domains h x hx; exact h x hx
    | cons u rest ih =>
      intro domains h x hx
      refine ih (updateDomainStatus u.1 u.2.1 u.2.2.1 u.2.2.2 domains) ?_ x hx
      intro y hy
      simp only [updateDomainStatus, List.mem_map] at hy
      obtain ⟨z, hz, rfl⟩ := hy
      exact applyStatusToRecord_history_le _ _ _ _ _ (h z hz)

theorem history_bounded_fifo_change_only_witness :
    (applyStatusToRecord "1" SecurityStatus.Safe SpamhausStatus.Safe 9
      { id := "1", name := "a.b", securityStatus := SecurityStatus.Safe,
        spamhausStatus := SpamhausStatus.Safe, lastChecked := some 3,
        isChecking := true,
        history := [⟨3, SecurityStatus.Safe, SpamhausStatus.Safe⟩] }).history =
      [⟨3, SecurityStatus.Safe, SpamhausStatus.Safe⟩] :=
  (history_bounded_fifo_change_only "1" SecurityStatus.Safe SpamhausStatus.Safe 9
    _).1 rfl rfl

/-- C10: `updateDomainStatus` is frame-preserving: the result is pointwise
related to the input — ids and names are never changed, and any record whose
id differs from the given id is returned unchanged. -/
theorem updateDomainStatus_frame (domains : List Domain) (domainId : String)
    (sec : SecurityStatus) (spam : SpamhausStatus) (ts : Nat) :
    List.Forall₂
      (fun d d' => d'.id = d.id ∧ d'.name = d.name ∧ (d.id ≠ domainId → d' = d))
      domains (updateDomainStatus domainId sec spam ts domains) := by
  rw [updateDomainStatus]
  induction domains with
  | nil => exact List.Forall₂.nil
  | cons a t ih =>
    refine List.Forall₂.cons ⟨applyStatusToRecord_id _ _ _ _ _,
      applyStatusToRecord_name _ _ _ _ _, ?_⟩ ih
    intro hne
    exact applyStatusToRecord_of_ne _ _ _ _ _ hne

theorem updateDomainStatus_frame_witness :
    List.Forall₂
      (fun d d' => d'.id = d.id ∧ d'.name = d.name ∧ (d.id ≠ "2" → d' = d))
      [{ id := "1", name := "a.b", securityStatus := SecurityStatus.Unknown,
         spamhausStatus := SpamhausStatus.Unknown, lastChecked := none,
         isChecking := true, history := [] }]
      (updateDomainStatus "2" SecurityStatus.Safe SpamhausStatus.Safe 7
        [{ id := "1", name := "a.b", securityStatus := SecurityStatus.Unknown,
           spamhausStatus := SpamhausStatus.Unknown, lastChecked := none,
           isChecking := true, history := [] }]) :=
  updateDomainStatus_frame _ "2" SecurityStatus.Safe SpamhausStatus.Safe 7

/-- C8 counterexample: the record created by the first variant's `addDomain`
starts with `spamhausStatus = Safe`, not `Unknown`. -/
theorem addDomain₁_initial_blocklist_safe :
    addDomain₁ "example.com" 0 [] = [newDomain₁ 0 "example.com"] ∧
    (newDomain₁ 0 "example.com").spamhausStatus = SpamhausStatus.Safe ∧
    SpamhausStatus.Safe ≠ SpamhausStatus.Unknown := by
  refine ⟨by decide, rfl, by decide⟩

/-- C8 (amended): a record created by an add-domain request starts with
`securityStatus = Unknown`, `isChecking = true`, `lastCheckedAt = null` and
an empty history in both variants; `blocklistStatus` starts at `Unknown` in
the second variant but at `Safe` in the first. -/
theorem new_record_initial_state (nowId : Nat) (nm : String) :
    ((newDomain₁ nowId nm).securityStatus = SecurityStatus.Unknown ∧
      (newDomain₁ nowId nm).spamhausStatus = SpamhausStatus.Safe ∧
      (newDomain₁ nowId nm).lastChecked = none ∧
      (newDomain₁ nowId nm).isChecking = true ∧
      (newDomain₁ nowId nm).history = []) ∧
    ((newDomain₂ nowId nm).securityStatus = SecurityStatus.Unknown ∧
      (newDomain₂ nowId nm).spamhausStatus = SpamhausStatus.Unknown ∧
      (newDomain₂ nowId nm).lastChecked = none ∧
      (newDomain₂ nowId nm).isChecking = true ∧
      (newDomain₂ nowId nm).history = []) ∧
    (∀ domainName ds,
      ds.any (fun d => jsToLowerCase d.name == normalizeDomainName domainName) = false →
      addDomain₁ domainName nowId ds =
        ds ++ [newDomain₁ nowId (normalizeDomainName domainName)]) := by
  refine ⟨⟨rfl, rfl, rfl, rfl, rfl⟩, ⟨rfl, rfl, rfl, rfl, rfl⟩, ?_⟩
  intro domainName ds h
  simp [addDomain₁, h]

theorem new_record_initial_state_witness :
    addDomain₁ "Example.com" 5 [] =
      [] ++ [newDomain₁ 5 (normalizeDomainName "Example.com")] :=
  (new_record_initial_state 5 "x").2.2 "Example.com" [] rfl

theorem updateDomainStatus_matched_fields (ds : List Domain) (domainId : String)
    (sec : SecurityStatus) (spam : SpamhausStatus) (ts : Nat) :
    ∀ d' ∈ updateDomainStatus domainId sec spam ts ds, d'.id = domainId →
      d'.securityStatus = sec ∧ d'.spamhausStatus = spam ∧
      d'.isChecking = false ∧ d'.lastChecked = some ts := by
  intro d' hd' hid
  simp only [updateDomainStatus, List.mem_map] at hd'
  obtain ⟨z, hz, rfl⟩ := hd'
  by_cases h : z.id == domainId
  · simp [applyStatusToRecord, h]
  · rw [applyStatusToRecord, if_neg h] at hid
    exact absurd hid (by simpa using h)

/-- C3 counterexample: a record whose last verdicts were `Safe` /
`Blacklisted` has both statuses overwritten with `Unknown` when its check
fails (second store variant; the first resets to `Unknown` / `Safe`) — the
prior verdict is not preserved. -/
theorem check_failure_overwrites_status :
    ((checkDomain₂ "1" (ClientOutcome.failure "network error") 10
        ⟨[⟨"1", "a.b", SecurityStatus.Safe, SpamhausStatus.Blacklisted,
           some 3, false, []⟩], false, false, "", none⟩).domains.map
        Domain.securityStatus) = [SecurityStatus.Unknown] ∧
    SecurityStatus.Unknown ≠ SecurityStatus.Safe := by
  exact ⟨by decide, by decide⟩

/-- C3 (amended): the catch branch of `checkDomain` calls
`updateDomainStatus` with `Unknown` statuses (`Unknown`/`Safe` in the first
variant, `Unknown`/`Unknown` in the second): the failed record ends with
`isChecking = false` and a fresh `lastChecked`, but its prior
`securityStatus` and `blocklistStatus` are overwritten rather than kept;
the failure reason is reported via the `checkStatus` message (second
variant), not stored on the record. -/
theorem check_failure_resets_to_unknown (ds : List Domain) (st : StoreState)
    (domainId msg : String) (ts : Nat) :
    (∀ d' ∈ checkDomain₁ domainId (ClientOutcome.failure msg) ts ds,
      d'.id = domainId →
        d'.securityStatus = SecurityStatus.Unknown ∧
        d'.spamhausStatus = SpamhausStatus.Safe ∧
        d'.isChecking = false ∧ d'.lastChecked = some ts) ∧
    (∀ d' ∈ (checkDomain₂ domainId (ClientOutcome.failure msg) ts st).domains,
      d'.id = domainId →
        d'.securityStatus = SecurityStatus.Unknown ∧
        d'.spamhausStatus = SpamhausStatus.Unknown ∧
        d'.isChecking = false ∧ d'.lastChecked = some ts) := by
  constructor
  · intro d' hd' hid
    rw [checkDomain₁] at hd'
    rcases h : ds.find? (fun d => d.id == domainId) with _ | z
    · rw [h] at hd'
      simp only [List.mem_map] at hd'
      obtain ⟨z, hz, rfl⟩ := hd'
      have hne := List.find?_eq_none.mp h z hz
      by_cases hb : z.id == domainId
      · exact absurd hb hne
      · rw [if_neg hb] at hid
        exact absurd hid (by simpa using hb)
    · rw [h] at hd'
      exact updateDomainStatus_matched_fields _ _ _ _ _ d' hd' hid
  · intro d' hd' hid
    rw [checkDomain₂] at hd'
    rcases h : st.domains.find? (fun d => d.id == domainId) with _ | z
    · rw [h] at hd'
      simp only [List.mem_map] at hd'
      obtain ⟨z, hz, rfl⟩ := hd'
      have hne := List.find?_eq_none.mp h z hz
      by_cases hb : z.id == domainId
      · exact absurd hb hne
      · rw [if_neg hb] at hid
        exact absurd hid (by simpa using hb)
    · rw [h] at hd'
      exact updateDomainStatus_matched_fields _ _ _ _ _ d' hd' hid

theorem check_failure_resets_to_unknown_witness :
    (⟨"1", "a.b", SecurityStatus.Unknown, SpamhausStatus.Safe, some 4, false,
        [⟨4, SecurityStatus.Unknown, SpamhausStatus.Safe⟩]⟩ : Domain).securityStatus =
      SecurityStatus.Unknown ∧
    (⟨"1", "a.b", SecurityStatus.Unknown, SpamhausStatus.Safe, some 4, false,
        [⟨4, SecurityStatus.Unknown, SpamhausStatus.Safe⟩]⟩ : Domain).spamhausStatus =
      SpamhausStatus.Safe ∧
    (⟨"1", "a.b", SecurityStatus.Unknown, SpamhausStatus.Safe, some 4, false,
        [⟨4, SecurityStatus.Unknown, SpamhausStatus.Safe⟩]⟩ : Domain).isChecking =
      false ∧
    (⟨"1", "a.b", SecurityStatus.Unknown, SpamhausStatus.Safe, some 4, false,
        [⟨4, SecurityStatus.Unknown, SpamhausStatus.Safe⟩]⟩ : Domain).lastChecked =
      some 4 :=
  (check_failure_resets_to_unknown
    [⟨"1", "a.b", SecurityStatus.Safe, SpamhausStatus.Safe, some 1, false, []⟩]
    ⟨[], false, false, "", none⟩ "1" "boom" 4).1
    ⟨"1", "a.b", SecurityStatus.Unknown, SpamhausStatus.Safe, some 4, false,
      [⟨4, SecurityStatus.Unknown, SpamhausStatus.Safe⟩]⟩
    (by decide) (by decide)

theorem checkDomain₂_domains_only (domainId : String) (oc : ClientOutcome)
    (ts : Nat) (st : StoreState) (b ic : Bool) (cs : String)
    (lc : Option Nat) :
    (checkDomain₂ domainId oc ts st).domains =
      (checkDomain₂ domainId oc ts ⟨st.domains, b, ic, cs, lc⟩).domains := by
  simp only [checkDomain₂]
  rcases h : st.domains.find? (fun d => d.id == domainId) with _ | z
  · simp [h]
  · simp only [h]
    cases oc <;> simp [updateDomainStatus₂]

theorem batch_fold_domains (oc : String → ClientOutcome) (ts : Nat) :
    ∀ (dl : List Domain) (s : StoreState),
      (dl.foldl
        (fun s domain =>
          checkDomain₂ domain.id (oc domain.id) ts
            { s with checkStatus := "正在检查域名: " ++ domain.name }) s).domains =
      dl.foldl
        (fun ds domain =>
          (checkDomain₂ domain.id (oc domain.id) ts
            ⟨ds, true, true, "", none⟩).domains) s.domains := by
  intro dl
  induction dl with
  | nil => intro s; rfl
  | cons a t ih =>
    intro s
    simp only [List.foldl_cons]
    rw [ih]
    congr 1
    exact checkDomain₂_domains_only _ _ _ _ true true "" none

/-- C4 counterexample: the first variant's `checkAllDomains` is neither
guarded nor serial.  Starting it on two fresh records leaves BOTH records
`isChecking = true` before any check completes — under a serial,
fully-awaited sweep the second record would still be idle while the first
check is in flight; and starting it again while both checks are still
pending is not skipped: it fires both checks again (a non-empty pending
list), instead of leaving the registry alone. -/
theorem checkAllDomains₁_unguarded_concurrent :
    ((checkAllDomainsStart₁
        [⟨"1", "a.b", SecurityStatus.Unknown, SpamhausStatus.Unknown, none,
          false, []⟩,
         ⟨"2", "c.d", SecurityStatus.Unknown, SpamhausStatus.Unknown, none,
          false, []⟩]).1.map Domain.isChecking) = [true, true] ∧
    (checkAllDomainsStart₁
        ((checkAllDomainsStart₁
          [⟨"1", "a.b", SecurityStatus.Unknown, SpamhausStatus.Unknown, none,
            false, []⟩,
           ⟨"2", "c.d", SecurityStatus.Unknown, SpamhausStatus.Unknown, none,
            false, []⟩]).1)).2 = ["1", "2"] ∧
    ["1", "2"] ≠ ([] : List String) := by
  refine ⟨by decide, by decide, by decide⟩

theorem fold_marks (X : List Domain) : ∀ l : List Domain,
    X.foldl (fun ds domain => checkDomainMark domain.id ds) l =
      l.map (fun d =>
        if X.any (fun x => d.id == x.id) then { d with isChecking := true }
        else d) := by
  induction X with
  | nil => intro l; simp
  | cons x X' ih =>
    intro l
    simp only [List.foldl_cons]
    rw [ih (checkDomainMark x.id l), checkDomainMark, List.map_map]
    refine List.map_congr_left ?_
    intro d hd
    by_cases hx : d.id == x.id
    · have hxx : d.id = x.id := by simpa using hx
      simp [hxx]
    · have hxx : ¬d.id = x.id := by simpa using hx
      simp [hxx]

theorem checkAllDomainsStart₁_marks (ds : List Domain) :
    (checkAllDomainsStart₁ ds).1 =
      ds.map (fun d => { d with isChecking := true }) ∧
    (checkAllDomainsStart₁ ds).2 = ds.map Domain.id := by
  constructor
  · show ds.foldl (fun l domain => checkDomainMark domain.id l) ds = _
    rw [fold_marks]
    refine List.map_congr_left ?_
    intro d hd
    rw [if_pos (List.any_eq_true.mpr ⟨d, hd, by simp⟩)]
  · show (ds.filter _).map Domain.id = ds.map Domain.id
    have : ds.filter (fun domain =>
        (ds.find? (fun d => d.id == domain.id)).isSome) = ds := by
      rw [List.filter_eq_self]
      intro a ha
      simp only [Option.isSome_iff_exists]
      exact Option.isSome_iff_exists.mp
        (List.find?_isSome.mpr ⟨a, ha, by simp⟩)
    rw [this]

/-- C4 (amended): at most one sweep at a time holds for the second
variant's `batchCheckDomains` — invoked while the guard `isCheckingRef` is
set it returns the state unchanged (skip); a sweep that does run applies
the per-domain checks serially, its registry effect being the left-to-right
composition of the per-domain `checkDomain` effects; and both checking
flags are back at idle (`false`) when it returns.  The first variant's
`checkAllDomains` has no sweep guard and no awaiting: it synchronously
marks every listed domain as checking and fires every per-domain check
(none skipped), the completions applying later in arbitrary order. -/
theorem sweep_guard_serial_idle (dl ds₁ : List Domain)
    (oc : String → ClientOutcome) (ts : Nat) (st : StoreState) :
    (st.isCheckingRef = true → batchCheckDomains dl oc ts st = st) ∧
    (st.isCheckingRef = false → dl ≠ [] →
      (batchCheckDomains dl oc ts st).isCheckingRef = false ∧
      (batchCheckDomains dl oc ts st).isChecking = false) ∧
    (st.isCheckingRef = false → dl ≠ [] →
      (batchCheckDomains dl oc ts st).domains =
        dl.foldl
          (fun ds domain =>
            (checkDomain₂ domain.id (oc domain.id) ts
              ⟨ds, true, true, "", none⟩).domains) st.domains) ∧
    (checkAllDomainsStart₁ ds₁).1 =
      ds₁.map (fun d => { d with isChecking := true }) ∧
    (checkAllDomainsStart₁ ds₁).2 = ds₁.map Domain.id := by
  have hlen : dl ≠ [] → (dl.length == 0) = false := by
    intro h
    simpa using h
  refine ⟨?_, ?_, ?_, (checkAllDomainsStart₁_marks ds₁).1,
    (checkAllDomainsStart₁_marks ds₁).2⟩
  · intro h
    simp [batchCheckDomains, h]
  · intro h hne
    simp only [batchCheckDomains, h, if_false, hlen hne]
    exact ⟨rfl, rfl⟩
  · intro h hne
    simp only [batchCheckDomains, h, if_false, hlen hne]
    exact batch_fold_domains oc ts dl _

theorem sweep_guard_serial_idle_witness :
    batchCheckDomains
      [⟨"1", "a.b", SecurityStatus.Unknown, SpamhausStatus.Unknown, none, true,
        []⟩]
      (fun _ => ClientOutcome.success SecurityStatus.Safe SpamhausStatus.Safe) 5
      ⟨[⟨"1", "a.b", SecurityStatus.Unknown, SpamhausStatus.Unknown, none, true,
        []⟩], true, true, "", none⟩ =
    ⟨[⟨"1", "a.b", SecurityStatus.Unknown, SpamhausStatus.Unknown, none, true,
        []⟩], true, true, "", none⟩ :=
  (sweep_guard_serial_idle _ [] _ 5 _).1 rfl

theorem map_name_of_pointwise (l : List Domain) (f : Domain → Domain)
    (hf : ∀ d ∈ l, (f d).name = d.name) :
    (l.map f).map Domain.name = l.map Domain.name := by
  rw [List.map_map]
  exact List.map_congr_left (fun a ha => hf a ha)

theorem addDomain₂_names (st : StoreState) (domainName : String)
    (nowId ts : Nat) (oc : ClientOutcome)
    (h : st.domains.any
      (fun d => jsToLowerCase d.name == normalizeDomainName domainName) = false) :
    (addDomain₂ domainName nowId ts oc st).domains.map Domain.name =
      st.domains.map Domain.name ++ [normalizeDomainName domainName] := by
  simp only [addDomain₂, h, Bool.false_eq_true, if_false]
  cases oc with
  | success sec spam =>
    dsimp only
    rw [map_name_of_pointwise _ _ (by intro d hd; split <;> rfl)]
    simp [newDomain₂]
  | failure msg =>
    dsimp only
    rw [map_name_of_pointwise _ _ (by intro d hd; split <;> rfl)]
    simp [newDomain₂]

/-- C7 counterexample: the first variant's `addDomain` has no error
channel — its entire caller-visible result is the registry list — and on
the duplicate second call (`Example.com` then `example.com `) that result
is exactly the unchanged one-record registry: no `AlreadyExists` error is
reported to the caller, refuting the claim as stated. -/
theorem addDomain₁_duplicate_reports_nothing :
    addDomain₁ "example.com " 9 (addDomain₁ "Example.com" 7 []) =
      addDomain₁ "Example.com" 7 [] ∧
    addDomain₁ "Example.com" 7 [] = [newDomain₁ 7 "example.com"] := by
  refine ⟨by decide, by decide⟩

/-- C7 (amended): adding `Example.com` and then `example.com ` (same
normalized name) leaves exactly one matching record and the second call
changes no record; the second store variant reports the duplicate to the
caller through the already-exists `checkStatus` message, while the first
variant's second call silently leaves the registry unchanged with no
report — no `AlreadyExists` error value is returned in either variant. -/
theorem duplicate_add_yields_single_record (st : StoreState)
    (n1 t1 n2 t2 : Nat) (o1 o2 : ClientOutcome)
    (h : st.domains.any (fun d => jsToLowerCase d.name == "example.com") = false) :
    ((addDomain₂ "example.com " n2 t2 o2
        (addDomain₂ "Example.com" n1 t1 o1 st)).domains.filter
      (fun d => jsToLowerCase d.name == "example.com")).length = 1 ∧
    (addDomain₂ "example.com " n2 t2 o2
        (addDomain₂ "Example.com" n1 t1 o1 st)).domains =
      (addDomain₂ "Example.com" n1 t1 o1 st).domains ∧
    (addDomain₂ "example.com " n2 t2 o2
        (addDomain₂ "Example.com" n1 t1 o1 st)).checkStatus =
      "域名 example.com 已存在，无需重复添加" ∧
    (∀ (ds : List Domain) (m1 m2 : Nat),
      ds.any (fun d => jsToLowerCase d.name == "example.com") = false →
      addDomain₁ "example.com " m2 (addDomain₁ "Example.com" m1 ds) =
        addDomain₁ "Example.com" m1 ds) := by
  have hn1 : normalizeDomainName "Example.com" = "example.com" := by decide
  have hn2 : normalizeDomainName "example.com " = "example.com" := by decide
  have hq : (jsToLowerCase "example.com" == "example.com") = true := by decide
  have h1 : st.domains.any
      (fun d => jsToLowerCase d.name == normalizeDomainName "Example.com") = false := by
    rw [hn1]; exact h
  have names1 := addDomain₂_names st "Example.com" n1 t1 o1 h1
  rw [hn1] at names1
  have hmem : "example.com" ∈
      (addDomain₂ "Example.com" n1 t1 o1 st).domains.map Domain.name := by
    rw [names1]; simp
  obtain ⟨d1, hd1, hd1name⟩ := List.mem_map.mp hmem
  have hany : (addDomain₂ "Example.com" n1 t1 o1 st).domains.any
      (fun d => jsToLowerCase d.name == normalizeDomainName "example.com ") = true := by
    rw [hn2]
    exact List.any_eq_true.mpr ⟨d1, hd1, by rw [hd1name]; exact hq⟩
  have hdup : addDomain₂ "example.com " n2 t2 o2
      (addDomain₂ "Example.com" n1 t1 o1 st) =
      { addDomain₂ "Example.com" n1 t1 o1 st with
        checkStatus := "域名 " ++ normalizeDomainName "example.com " ++
          " 已存在，无需重复添加" } := by
    rw [addDomain₂, if_pos hany]
  refine ⟨?_, ?_, ?_, ?_⟩
  · rw [hdup]
    show ((addDomain₂ "Example.com" n1 t1 o1 st).domains.filter
      (fun d => jsToLowerCase d.name == "example.com")).length = 1
    rw [← List.countP_eq_length_filter]
    have hcp : ∀ l : List Domain,
        l.countP (fun d => jsToLowerCase d.name == "example.com") =
          (l.map Domain.name).countP (fun nm => jsToLowerCase nm == "example.com") := by
      intro l
      rw [List.countP_map]
      rfl
    rw [hcp, names1, List.countP_append]
    have hz : (st.domains.map Domain.name).countP
        (fun nm => jsToLowerCase nm == "example.com") = 0 := by
      rw [← hcp, List.countP_eq_zero]
      exact fun d hd => by
        have hall := List.any_eq_false.mp h
        simpa using hall d hd
    rw [hz]
    simp [hq]
  · rw [hdup]
  · rw [hdup, hn2]; rfl
  · intro ds m1 m2 hds
    have hds1 : ds.any
        (fun d => jsToLowerCase d.name == normalizeDomainName "Example.com") = false := by
      rw [hn1]; exact hds
    have hfirst : addDomain₁ "Example.com" m1 ds =
        ds ++ [newDomain₁ m1 (normalizeDomainName "Example.com")] := by
      rw [addDomain₁, if_neg (by rw [hds1]; simp)]
    rw [hfirst, addDomain₁, if_pos]
    rw [List.any_append]
    apply Bool.or_eq_true_iff.mpr
    right
    simp only [List.any_cons, List.any_nil, Bool.or_false]
    rw [hn1, hn2]
    exact hq

theorem duplicate_add_yields_single_record_witness :
    ((addDomain₂ "example.com " 2 3
        (ClientOutcome.success SecurityStatus.Safe SpamhausStatus.Safe)
        (addDomain₂ "Example.com" 0 1
          (ClientOutcome.success SecurityStatus.Safe SpamhausStatus.Safe)
          ⟨[], false, false, "", none⟩)).domains.filter
      (fun d => jsToLowerCase d.name == "example.com")).length = 1 :=
  (duplicate_add_yields_single_record ⟨[], false, false, "", none⟩ 0 1 2 3
    (ClientOutcome.success SecurityStatus.Safe SpamhausStatus.Safe)
    (ClientOutcome.success SecurityStatus.Safe SpamhausStatus.Safe) rfl).1

/-- C2: the blocklist client of the first service variant returns `Unknown`
(never `Safe`) when the transport fails after retries are exhausted, and on
a successful response classifies by the not-listed indicator; the second
service variant however returns `Safe` from its catch branch — evaluated
here at a transport that fails all four attempts. -/
theorem spamhaus_verdicts (attempts : List (FetchAttempt String)) :
    (fetchWithRetry attempts MAX_RETRIES = Except.error () →
      checkSpamhausStatus₁ attempts = SpamhausStatus.Unknown) ∧
    (∀ r : Response String,
      fetchWithRetry attempts MAX_RETRIES = Except.ok r →
      checkSpamhausStatus₁ attempts =
        (if jsIncludes r.body notListedIndicator then SpamhausStatus.Safe
         else SpamhausStatus.Blacklisted)) ∧
    (checkSpamhausStatus₂ "example.com" 0 []
        [.throwErr, .throwErr, .throwErr, .throwErr]).1 =
      SpamhausStatus.Safe := by
  refine ⟨?_, ?_, by decide⟩
  · intro h
    rw [checkSpamhausStatus₁, h]
  · intro r h
    rw [checkSpamhausStatus₁, h]

theorem spamhaus_verdicts_witness :
    checkSpamhausStatus₁ [.throwErr, .throwErr, .throwErr, .throwErr] =
      SpamhausStatus.Unknown :=
  (spamhaus_verdicts [.throwErr, .throwErr, .throwErr, .throwErr]).1 rfl

/-! ## Digest length facts for C9 -/

theorem sha256bytes_length (msg : List Nat) :
    (SHA256.sha256bytes msg).length = 32 := by
  simp [SHA256.sha256bytes, SHA256.wordBytes]

theorem wordBytes_lt (w : Nat) : ∀ b ∈ SHA256.wordBytes w, b < 256 := by
  intro b hb
  simp only [SHA256.wordBytes, List.mem_cons, List.not_mem_nil, or_false] at hb
  rcases hb with rfl | rfl | rfl | rfl <;> omega

theorem sha256bytes_lt (msg : List Nat) :
    ∀ b ∈ SHA256.sha256bytes msg, b < 256 := by
  intro b hb
  rw [SHA256.sha256bytes] at hb
  simp only [List.mem_append] at hb
  rcases hb with ((((((h | h) | h) | h) | h) | h) | h) | h <;>
    exact wordBytes_lt _ b h

set_option maxRecDepth 40000 in
theorem byteHex_length : ∀ b < 256, (padStart2 (natToHexString b)).length = 2 := by
  decide

theorem join_length (l : List String) :
    (String.join l).length = (l.map String.length).sum := by
  have aux : ∀ (l : List String) (s : String),
      (l.foldl (fun a b => a ++ b) s).length =
        s.length + (l.map String.length).sum := by
    intro l
    induction l with
    | nil => intro s; simp
    | cons a t ih =>
      intro s
      simp only [List.foldl_cons, List.map_cons, List.sum_cons, ih,
        String.length_append]
      omega
  simpa using aux l ""

theorem bytesToHex_length :
    ∀ (bytes : List Nat), (∀ b ∈ bytes, b < 256) →
      (bytesToHex bytes).length = 2 * bytes.length := by
  intro bytes
  induction bytes with
  | nil => intro _; rfl
  | cons b t ih =>
    intro h
    rw [bytesToHex, join_length]
    simp only [List.map_cons, List.sum_cons]
    rw [byteHex_length b (h b (List.mem_cons_self _ _))]
    have ht := ih (fun x hx => h x (List.mem_cons_of_mem _ hx))
    rw [bytesToHex, join_length] at ht
    simp only [List.length_cons]
    omega

theorem generateSHA256Hash_length (s : String) :
    (generateSHA256Hash s).length = 64 := by
  rw [generateSHA256Hash, bytesToHex_length _ (sha256bytes_lt _),
    sha256bytes_length]

set_option maxRecDepth 40000 in
/-- The SHA-256 model reproduces the official FIPS 180-4 test vector for
`"abc"`. -/
theorem generateSHA256Hash_fips_vector :
    generateSHA256Hash "abc" =
      "ba7816bf8f01cfea414140de5dae2223b00361a396177a9cb410ff61f20015ad" := by
  decide

/-- C9: for a URL whose path is `/a/b/c` the expression list is the bare
host followed by every path-prefix expansion in order; the candidate URLs
are the four scheme/www variants; and each expression's lookup prefix is
the first 8 characters of its 64-hex-character SHA-256 digest. -/
theorem url_expressions_and_hash_prefixes (h a b c dom s : String) :
    generateUrlExpressionsCore h [a, b, c] =
      [h, h ++ "/" ++ a, h ++ "/" ++ a ++ "/" ++ b,
       h ++ "/" ++ a ++ "/" ++ b ++ "/" ++ c] ∧
    generateUrlExpressions "http://example.test/a/b/c" =
      ["example.test", "example.test/a", "example.test/a/b",
       "example.test/a/b/c"] ∧
    candidateUrls dom = ["http://" ++ dom, "https://" ++ dom,
      "http://www." ++ dom, "https://www." ++ dom] ∧
    gsbExpressions "example.com" =
      ["example.com", "example.com", "www.example.com", "www.example.com"] ∧
    gsbExpressionHashPrefixes dom =
      (gsbExpressions dom).map (fun e => (generateSHA256Hash e).take 8) ∧
    (generateSHA256Hash s).length = 64 ∧
    (getHashPrefix (generateSHA256Hash s)).length = 8 := by
  have hlen : ∀ y : String, y.length = y.data.length := fun _ => rfl
  refine ⟨?_, by decide, rfl, by decide, ?_, generateSHA256Hash_length s, ?_⟩
  · simp [generateUrlExpressionsCore, String.append_assoc]
  · simp [gsbExpressionHashPrefixes, gsbExpressionHashes, getHashPrefix,
      List.map_map]
  · rw [getHashPrefix, hlen, String.data_take, List.length_take]
    have h64 : (generateSHA256Hash s).data.length = 64 := by
      rw [← hlen]
      exact generateSHA256Hash_length s
    omega

/-- C1: verdict policy of the hash-prefix threat check — `Unsafe` exactly
when a successfully parsed HTTP-200 response contains a match whose
recomputed full digest equals one of the locally computed expression
digests; a successful 200 response with zero matches is `Safe`; transport
failure after retries, a non-200 status, or a malformed body give
`Unknown`, never `Safe`. -/
theorem threatmatch_verdict_policy (domain : String)
    (attempts : List (FetchAttempt SBBody)) :
    (checkWithGoogleSafeBrowsing domain attempts = SecurityStatus.Unsafe ↔
      ∃ r, fetchWithRetry attempts MAX_RETRIES = Except.ok r ∧
        r.status = 200 ∧ ∃ data, r.body = Except.ok data ∧
          ∃ m ∈ data.threatMatches.getD [],
            generateSHA256Hash m.threatUrl ∈ gsbExpressionHashes domain) ∧
    (∀ data r, fetchWithRetry attempts MAX_RETRIES = Except.ok r →
      r.status = 200 → r.body = Except.ok data →
      data.threatMatches.getD [] = [] →
      checkWithGoogleSafeBrowsing domain attempts = SecurityStatus.Safe) ∧
    (∀ e, fetchWithRetry attempts MAX_RETRIES = Except.error e →
      checkWithGoogleSafeBrowsing domain attempts = SecurityStatus.Unknown) ∧
    (∀ r, fetchWithRetry attempts MAX_RETRIES = Except.ok r → r.status ≠ 200 →
      checkWithGoogleSafeBrowsing domain attempts = SecurityStatus.Unknown) ∧
    (∀ e r, fetchWithRetry attempts MAX_RETRIES = Except.ok r →
      r.body = Except.error e →
      checkWithGoogleSafeBrowsing domain attempts = SecurityStatus.Unknown) := by
  rcases hf : fetchWithRetry attempts MAX_RETRIES with e | r
  · refine ⟨?_, ?_, ?_, ?_, ?_⟩ <;>
      simp [checkWithGoogleSafeBrowsing, hf, forall_eq']
  · by_cases hs : r.status = 200
    · rcases hb : r.body with e | data
      · refine ⟨?_, ?_, ?_, ?_, ?_⟩ <;>
          simp [checkWithGoogleSafeBrowsing, hf, hs, hb, forall_eq']
      · rcases hm : data.threatMatches with _ | ms
        · refine ⟨?_, ?_, ?_, ?_, ?_⟩ <;>
            simp [checkWithGoogleSafeBrowsing, hf, hs, hb, hm, forall_eq']
        · refine ⟨?_, ?_, ?_, ?_, ?_⟩ <;>
            simp [checkWithGoogleSafeBrowsing, hf, hs, hb, hm,
              List.any_eq_true, List.elem_iff, forall_eq']
          rintro rfl
          simp
    · refine ⟨?_, ?_, ?_, ?_, ?_⟩ <;>
        simp [checkWithGoogleSafeBrowsing, hf, hs, forall_eq']

theorem threatmatch_verdict_policy_witness :
    checkWithGoogleSafeBrowsing "a.b"
      [.throwErr, .throwErr, .throwErr, .throwErr] = SecurityStatus.Unknown :=
  (threatmatch_verdict_policy "a.b"
    [.throwErr, .throwErr, .throwErr, .throwErr]).2.2.1 () rfl

end DomainMonitor
